import Mathlib

/-!
Shallow embedding of the microrun resource store
(`userspace/runtimed/state/store.go`, the ownership and type-restriction
wrappers, the typed view, and the generated kind registry), together with
theorems settling the spec claims about them.

Go maps `map[string]V` are modelled as association lists
`List (String × V)`; `proto.Clone` is the identity on pure values; the
channel side of `Watch`/`notify` is modelled by returning the list of
events an operation emits to watchers of the affected kind.
-/

set_option autoImplicit false

namespace Microrun

/-- Embeds `NetworkInterface` message from `resource.proto`. -/
structure NetworkInterface where
  interfaceName : String
  macAddress : String
  ipAddresses : List String
deriving DecidableEq, Repr

/-- Embeds `DHCPClient` message from `resource.proto`. -/
structure DHCPClient where
  interfaceRef : String
  enabled : Bool
deriving DecidableEq, Repr

/-- The `oneof spec` variants of `Resource` in `resource.proto`. -/
inductive ResourceSpec where
  | networkInterface (spec : NetworkInterface)
  | dhcpClient (spec : DHCPClient)
deriving DecidableEq, Repr

/-- Embeds `ResourceMetadata` message from `resource.proto`.  `generation` is an
`int64`; it is modelled as `Int` (no claim exercises wraparound).  The
proto map fields `labels` and the annotation map are modelled as
association lists. -/
structure ResourceMetadata where
  name : String
  kind : String
  owner : String
  generation : Int
  finalizers : List String
  labels : List (String × String)
  annots : List (String × String)
deriving DecidableEq, Repr

/-- Embeds `Resource` message: a nullable metadata pointer and an optional
`oneof` spec.  `Option` models proto message-field presence, which is
exactly what `proto.Equal` compares. -/
structure Resource where
  metadata : Option ResourceMetadata
  spec : Option ResourceSpec
deriving DecidableEq, Repr

/-- Embeds `EventType` from `store.go`. -/
inductive EventType where
  | created
  | updated
  | deleted
deriving DecidableEq, Repr

/-- Embeds `Event` from `store.go`: a change notification carrying a deep copy
of the affected resource. -/
structure Event where
  type : EventType
  resource : Resource
deriving DecidableEq, Repr

/-- The errors the store and its wrappers return.  The own errors of the memory store are `fmt.Errorf` strings; each distinct format string is one
constructor here.  `ownershipError` and `typeRestricted` are the
structured wrapper errors. -/
inductive StoreError where
  | metadataRequired
  | kindNotFound (kind : String)
  | notFound (kind name : String)
  | alreadyExists (kind name : String)
  | ownerConflict (kind name owner : String)
  | finalizersPending (kind name : String)
  | ownerCreateMismatch (got expected : String)
  | ownershipError (kind name owner action : String)
  | typeRestricted (kind action : String)
deriving DecidableEq, Repr

/-- Look up a key in an association list (Go map read). -/
def getEntry {α : Type} (k : String) : List (String × α) → Option α
  | [] => none
  | (k', v) :: t => if k' = k then some v else getEntry k t

/-- Write a key in an association list (Go map assignment): replaces the
first binding of `k`, or appends one. -/
def putEntry {α : Type} (k : String) (v : α) : List (String × α) → List (String × α)
  | [] => [(k, v)]
  | (k', v') :: t => if k' = k then (k, v) :: t else (k', v') :: putEntry k v t

/-- Remove a key from an association list (Go `delete`). -/
def dropEntry {α : Type} (k : String) : List (String × α) → List (String × α)
  | [] => []
  | (k', v') :: t => if k' = k then t else (k', v') :: dropEntry k t

/-- The `data` field of the memory store: kind → name → resource. -/
abbrev StoreData := List (String × List (String × Resource))

/-- The inner name → resource map for a kind, with the missing-kind case
read as the empty map (the Go zero-value map on `s.data[kind][name]`). -/
def bucketOf (data : StoreData) (kind : String) : List (String × Resource) :=
  (getEntry kind data).getD []

/-- Embeds `existing.Metadata.Owner` on a stored record.  Stored records always
carry metadata (`Create`/`Update` reject nil metadata), so the `none`
branch is unreachable on states the store builds; Go would nil-panic
there. -/
def storedOwner (r : Resource) : String :=
  match r.metadata with
  | some m => m.owner
  | none => ""

/-- Embeds `existing.Metadata.Generation` on a stored record (same reachability
remark as `storedOwner`). -/
def storedGeneration (r : Resource) : Int :=
  match r.metadata with
  | some m => m.generation
  | none => 0

/-- Embeds `resource.Metadata.Finalizers` on a stored record (same reachability
remark as `storedOwner`). -/
def storedFinalizers (r : Resource) : List String :=
  match r.metadata with
  | some m => m.finalizers
  | none => []

/-- Embeds `memoryStore.Get`: kind map lookup, then name lookup, then a deep
copy of the stored resource (identity here). -/
def MemoryStore.get (data : StoreData) (kind name : String) :
    Except StoreError Resource :=
  match getEntry kind data with
  | none => .error (.kindNotFound kind)
  | some resources =>
    match getEntry name resources with
    | none => .error (.notFound kind name)
    | some r => .ok r

/-- Embeds `memoryStore.List`: unknown kind returns `(nil, nil)` — an empty
collection and no error; otherwise deep copies of the resources of that kind. -/
def MemoryStore.list (data : StoreData) (kind : String) :
    Except StoreError (List Resource) :=
  match getEntry kind data with
  | none => .ok []
  | some resources => .ok (resources.map Prod.snd)

/-- Embeds `memoryStore.Create`.  Only nil metadata is rejected; the kind bucket
is materialised on demand (in Go this happens just before the duplicate
check, but a fresh bucket can never contain the name, so folding the two
steps is observably identical); a deep copy of the incoming resource is
stored unchanged — in particular the incoming `generation` is kept — and
a `Created` event is emitted to watchers of the kind. -/
def MemoryStore.create (data : StoreData) (resource : Resource) :
    Except StoreError (StoreData × List Event) :=
  match resource.metadata with
  | none => .error .metadataRequired
  | some meta =>
    match getEntry meta.name (bucketOf data meta.kind) with
    | some _ => .error (.alreadyExists meta.kind meta.name)
    | none =>
      .ok (putEntry meta.kind (putEntry meta.name resource (bucketOf data meta.kind)) data,
           [⟨.created, resource⟩])

/-- Embeds `memoryStore.Update`: nil-metadata check, existence check, the
own ownership check of the core store, the `proto.Equal` no-op check, then the
generation bump `existing.Metadata.Generation + 1` written into the
incoming record, which is stored (as a deep copy) and carried by the
`Updated` event. -/
def MemoryStore.update (data : StoreData) (resource : Resource) :
    Except StoreError (StoreData × List Event) :=
  match resource.metadata with
  | none => .error .metadataRequired
  | some meta =>
    match getEntry meta.name (bucketOf data meta.kind) with
    | none => .error (.notFound meta.kind meta.name)
    | some existing =>
      if storedOwner existing ≠ "" ∧ storedOwner existing ≠ meta.owner then
        .error (.ownerConflict meta.kind meta.name (storedOwner existing))
      else if existing = resource then
        .ok (data, [])
      else
        let bumped : Resource :=
          { resource with
            metadata := some { meta with generation := storedGeneration existing + 1 } }
        .ok (putEntry meta.kind (putEntry meta.name bumped (bucketOf data meta.kind)) data,
             [⟨.updated, bumped⟩])

/-- Embeds `memoryStore.Delete`: kind lookup, name lookup, finalizer gate, then
removal from the kind bucket and a `Deleted` event carrying the removed
record. -/
def MemoryStore.delete (data : StoreData) (kind name : String) :
    Except StoreError (StoreData × List Event) :=
  match getEntry kind data with
  | none => .error (.kindNotFound kind)
  | some resources =>
    match getEntry name resources with
    | none => .error (.notFound kind name)
    | some resource =>
      if storedFinalizers resource ≠ [] then
        .error (.finalizersPending kind name)
      else
        .ok (putEntry kind (dropEntry name resources) data, [⟨.deleted, resource⟩])

/-- Embeds `memoryStore.Watch` never fails: it registers a subscriber channel
and returns a nil error.  Only this error behaviour is modelled; the
stream itself is concurrency, outside the embedding. -/
def MemoryStore.watch (_data : StoreData) (_kind : String) : Except StoreError Unit :=
  .ok ()

/-- Embeds `resource.Metadata.Owner = owner` after the nil-metadata check: the
wrapper mutates the owner field of the incoming record before delegating. -/
def setOwner (resource : Resource) (owner : String) : Resource :=
  { resource with metadata := resource.metadata.map (fun m => { m with owner := owner }) }

/-- Embeds `OwnershipStore.Create` (wrapping the core store, as the runtime and
the tests deploy it): nil-metadata check, reject a non-empty incoming
owner different from the configured one, otherwise stamp the configured
owner and delegate. -/
def OwnershipStore.create (owner : String) (data : StoreData) (resource : Resource) :
    Except StoreError (StoreData × List Event) :=
  match resource.metadata with
  | none => .error .metadataRequired
  | some meta =>
    if meta.owner ≠ "" ∧ meta.owner ≠ owner then
      .error (.ownerCreateMismatch meta.owner owner)
    else
      MemoryStore.create data (setOwner resource owner)

/-- Embeds `OwnershipStore.Update`: nil-metadata check, fetch the existing
record through the `Get` of the wrapped store, fail with a structured
`OwnershipError` whenever its owner differs from the configured one,
otherwise stamp the configured owner and delegate. -/
def OwnershipStore.update (owner : String) (data : StoreData) (resource : Resource) :
    Except StoreError (StoreData × List Event) :=
  match resource.metadata with
  | none => .error .metadataRequired
  | some meta =>
    match MemoryStore.get data meta.kind meta.name with
    | .error e => .error e
    | .ok existing =>
      if storedOwner existing ≠ owner then
        .error (.ownershipError meta.kind meta.name (storedOwner existing) "update")
      else
        MemoryStore.update data (setOwner resource owner)

/-- Embeds `OwnershipStore.Delete`: fetch the existing record, fail with a
structured `OwnershipError` when its owner differs, else delegate. -/
def OwnershipStore.delete (owner : String) (data : StoreData) (kind name : String) :
    Except StoreError (StoreData × List Event) :=
  match MemoryStore.get data kind name with
  | .error e => .error e
  | .ok existing =>
    if storedOwner existing ≠ owner then
      .error (.ownershipError kind name (storedOwner existing) "delete")
    else
      MemoryStore.delete data kind name

/-- Embeds `TypeRestrictedStore.checkKindAllowed`: the allowlist is a Go map
used as a string set, modelled as a list with membership lookup. -/
def checkKindAllowed (allowedKinds : List String) (kind action : String) :
    Except StoreError Unit :=
  if kind ∈ allowedKinds then .ok () else .error (.typeRestricted kind action)

/-- Embeds `TypeRestrictedStore.Get` (wrapping the core store). -/
def TypeRestrictedStore.get (allowedKinds : List String) (data : StoreData)
    (kind name : String) : Except StoreError Resource :=
  match checkKindAllowed allowedKinds kind "get" with
  | .error e => .error e
  | .ok _ => MemoryStore.get data kind name

/-- Embeds `TypeRestrictedStore.List`. -/
def TypeRestrictedStore.list (allowedKinds : List String) (data : StoreData)
    (kind : String) : Except StoreError (List Resource) :=
  match checkKindAllowed allowedKinds kind "list" with
  | .error e => .error e
  | .ok _ => MemoryStore.list data kind

/-- Embeds `TypeRestrictedStore.Create`: nil-metadata check, then the kind is
taken from `resource.Metadata.Kind`. -/
def TypeRestrictedStore.create (allowedKinds : List String) (data : StoreData)
    (resource : Resource) : Except StoreError (StoreData × List Event) :=
  match resource.metadata with
  | none => .error .metadataRequired
  | some meta =>
    match checkKindAllowed allowedKinds meta.kind "create" with
    | .error e => .error e
    | .ok _ => MemoryStore.create data resource

/-- Embeds `TypeRestrictedStore.Update`: nil-metadata check, then the kind is
taken from `resource.Metadata.Kind`. -/
def TypeRestrictedStore.update (allowedKinds : List String) (data : StoreData)
    (resource : Resource) : Except StoreError (StoreData × List Event) :=
  match resource.metadata with
  | none => .error .metadataRequired
  | some meta =>
    match checkKindAllowed allowedKinds meta.kind "update" with
    | .error e => .error e
    | .ok _ => MemoryStore.update data resource

/-- Embeds `TypeRestrictedStore.Delete`. -/
def TypeRestrictedStore.delete (allowedKinds : List String) (data : StoreData)
    (kind name : String) : Except StoreError (StoreData × List Event) :=
  match checkKindAllowed allowedKinds kind "delete" with
  | .error e => .error e
  | .ok _ => MemoryStore.delete data kind name

/-- Embeds `TypeRestrictedStore.Watch` (error behaviour only, as for the core). -/
def TypeRestrictedStore.watch (allowedKinds : List String) (data : StoreData)
    (kind : String) : Except StoreError Unit :=
  match checkKindAllowed allowedKinds kind "watch" with
  | .error e => .error e
  | .ok _ => MemoryStore.watch data kind

/-- The closed set of registered record types of the generated registry
(`registry.go`): the type parameter `T` of the Go generics ranges over
exactly these. -/
inductive ApiType where
  | networkInterfaceT
  | dhcpClientT
deriving DecidableEq, Repr

/-- The Go record type denoted by each registered type. -/
@[reducible] def SpecType : ApiType → Type
  | .networkInterfaceT => NetworkInterface
  | .dhcpClientT => DHCPClient

/-- Embeds `KindFor[T]` from the generated registry. -/
def KindFor : ApiType → String
  | .networkInterfaceT => "NetworkInterface"
  | .dhcpClientT => "DHCPClient"

/-- Embeds `ExtractSpec[T]` from the generated registry: returns the typed spec
when the `oneof` of the resource holds the matching variant, else the
"resource does not contain spec of type ..." error. -/
def ExtractSpec : (t : ApiType) → Resource → Except String (SpecType t)
  | .networkInterfaceT, r =>
    match r.spec with
    | some (.networkInterface spec) => .ok spec
    | _ => .error "resource does not contain spec of type NetworkInterface"
  | .dhcpClientT, r =>
    match r.spec with
    | some (.dhcpClient spec) => .ok spec
    | _ => .error "resource does not contain spec of type DHCPClient"

/-- Embeds `SetSpec[T]`: replaces the `oneof` variant according to the type. -/
def SetSpec : (t : ApiType) → Resource → SpecType t → Resource
  | .networkInterfaceT, r, spec => { r with spec := some (.networkInterface spec) }
  | .dhcpClientT, r, spec => { r with spec := some (.dhcpClient spec) }

/-- Embeds `TypedResource[T]`: a wrapper around the raw resource handed out by
the typed store. -/
structure TypedResource where
  resource : Resource
deriving DecidableEq, Repr

/-- Embeds `TypedResource.Spec`: extracts the typed spec.  The `Except.error`
case is the branch where the Go code panics ("This should never happen
as we validate on creation"). -/
def TypedResource.specOf (t : ApiType) (tr : TypedResource) : Except String (SpecType t) :=
  ExtractSpec t tr.resource

/-- Embeds `TypedStore[T].Get` (instantiated, as in the tests, over the core
memory store): looks up `KindFor[T]` and wraps the result. -/
def TypedStore.get (t : ApiType) (data : StoreData) (name : String) :
    Except StoreError TypedResource :=
  match MemoryStore.get data (KindFor t) name with
  | .error e => .error e
  | .ok r => .ok ⟨r⟩

deriving instance DecidableEq for Except

/-- Metadata of the `eth0` fixture used by the test suites. -/
def ethMeta : ResourceMetadata :=
  { name := "eth0", kind := "NetworkInterface", owner := "", generation := 0,
    finalizers := [], labels := [], annots := [] }

/-- The `eth0` network-interface resource of the test suites. -/
def ethRes : Resource :=
  { metadata := some ethMeta,
    spec := some (.networkInterface
      { interfaceName := "eth0", macAddress := "00:11:22:33:44:55", ipAddresses := [] }) }

/-- A store holding exactly the `eth0` resource. -/
def st1 : StoreData := [("NetworkInterface", [("eth0", ethRes)])]

/-- The `eth0` resource with a changed MAC address (an effective update). -/
def ethRes2 : Resource :=
  { ethRes with
    spec := some (.networkInterface
      { interfaceName := "eth0", macAddress := "aa:bb:cc:dd:ee:ff", ipAddresses := [] }) }

/-- What the store holds after the effective update `ethRes2` of `st1`:
the new spec with the generation bumped to 1. -/
def ethRes2Bumped : Resource :=
  { ethRes2 with metadata := some { ethMeta with generation := 1 } }

/-- The `eth0` resource owned by writer `A`. -/
def ownedA : Resource := { ethRes with metadata := some { ethMeta with owner := "A" } }

/-- A store holding `eth0` owned by `A`. -/
def stOwnedA : StoreData := [("NetworkInterface", [("eth0", ownedA)])]

/-- An update of `eth0` attempted by writer `B` with a changed MAC. -/
def ownedB : Resource := { ethRes2 with metadata := some { ethMeta with owner := "B" } }

/-- The `eth0` resource carrying a caller-chosen generation of 7. -/
def gen7Res : Resource := { ethRes with metadata := some { ethMeta with generation := 7 } }

/-- The store after creating `gen7Res` in an empty store. -/
def st7 : StoreData := [("NetworkInterface", [("eth0", gen7Res)])]

/-- The `eth0` resource with an empty `metadata.name`. -/
def noNameRes : Resource := { ethRes with metadata := some { ethMeta with name := "" } }

/-- The `eth0` resource with a pending finalizer. -/
def finRes : Resource :=
  { ethRes with metadata := some { ethMeta with finalizers := ["cleanup-routes"] } }

/-- A store holding `eth0` with a pending finalizer. -/
def stFin : StoreData := [("NetworkInterface", [("eth0", finRes)])]

/-- A resource whose `metadata.kind` is `NetworkInterface` while its spec
variant is a `DHCPClient`: the tag/kind mismatch the core store accepts. -/
def mismRes : Resource :=
  { metadata := some { ethMeta with name := "bad0" },
    spec := some (.dhcpClient { interfaceRef := "eth0", enabled := true }) }

/-- The store after creating `mismRes` in an empty store. -/
def stMism : StoreData := [("NetworkInterface", [("bad0", mismRes)])]

/-- The owner recorded on the entry a store holds under a kind and name. -/
def ownerInStore (data : StoreData) (kind name : String) : Option String :=
  (getEntry name (bucketOf data kind)).map storedOwner

theorem getEntry_putEntry_self {α : Type} (k : String) (v : α) (l : List (String × α)) :
    getEntry k (putEntry k v l) = some v := by
  induction l with
  | nil => simp [getEntry, putEntry]
  | cons hd tl ih =>
    by_cases h : hd.1 = k
    · simp [getEntry, putEntry, h]
    · simp [getEntry, putEntry, h, ih]

/-- C1: for a stored resource `r` (with its metadata, as every record the
store holds), an `Update` with a record deeply structurally equal to `r`
returns success, leaves the state — and hence the generation — unchanged,
and emits no event to any watcher of the kind. -/
theorem noop_update_C1 (data : StoreData) (r : Resource) (m : ResourceMetadata)
    (hm : r.metadata = some m)
    (hstored : getEntry m.name (bucketOf data m.kind) = some r) :
    MemoryStore.update data r = .ok (data, []) := by
  have ho : storedOwner r = m.owner := by simp [storedOwner, hm]
  simp [MemoryStore.update, hm, hstored, ho]

/-- Witness for C1 at the `eth0` fixture. -/
theorem noop_update_C1_witness :
    ethRes.metadata = some ethMeta ∧
    getEntry ethMeta.name (bucketOf st1 ethMeta.kind) = some ethRes ∧
    MemoryStore.update st1 ethRes = .ok (st1, []) :=
  ⟨rfl, by decide, noop_update_C1 st1 ethRes ethMeta rfl (by decide)⟩

/-- C7: for a stored resource with non-empty `metadata.finalizers`,
`Delete` on its kind and name fails with the pending-finalizers error and
the store is untouched (the same state still `Get`s the resource); with
the finalizers empty — as after an `Update` that cleared them — `Delete`
removes the entry and emits a `Deleted` event carrying a snapshot of the
removed record. -/
theorem delete_finalizers_C7 (data : StoreData) (kind name : String) (r : Resource)
    (resources : List (String × Resource))
    (hkind : getEntry kind data = some resources)
    (hname : getEntry name resources = some r) :
    (storedFinalizers r ≠ [] →
      MemoryStore.delete data kind name = .error (.finalizersPending kind name) ∧
      MemoryStore.get data kind name = .ok r) ∧
    (storedFinalizers r = [] →
      MemoryStore.delete data kind name =
        .ok (putEntry kind (dropEntry name resources) data, [⟨.deleted, r⟩])) := by
  constructor <;> intro h <;>
    simp [MemoryStore.delete, MemoryStore.get, hkind, hname, h]

/-- Witness for C7 at the finalizer-bearing `eth0` fixture. -/
theorem delete_finalizers_C7_witness :
    getEntry "NetworkInterface" stFin = some [("eth0", finRes)] ∧
    getEntry "eth0" [("eth0", finRes)] = some finRes ∧
    ((storedFinalizers finRes ≠ [] →
      MemoryStore.delete stFin "NetworkInterface" "eth0" =
        .error (.finalizersPending "NetworkInterface" "eth0") ∧
      MemoryStore.get stFin "NetworkInterface" "eth0" = .ok finRes) ∧
    (storedFinalizers finRes = [] →
      MemoryStore.delete stFin "NetworkInterface" "eth0" =
        .ok (putEntry "NetworkInterface" (dropEntry "eth0" [("eth0", finRes)]) stFin,
             [⟨.deleted, finRes⟩]))) :=
  ⟨by decide, by decide,
   delete_finalizers_C7 stFin "NetworkInterface" "eth0" finRes [("eth0", finRes)]
     (by decide) (by decide)⟩

/-- C9: a `Get` for a kind with no entry in the data map — in particular
one never written — fails with the kind-not-found error while `List` on
it succeeds with the empty collection; a `Get` whose kind exists but
whose name is absent fails with the resource-not-found error. -/
theorem unknown_kind_C9 (data : StoreData) (kind name : String) :
    (getEntry kind data = none →
      MemoryStore.get data kind name = .error (.kindNotFound kind) ∧
      MemoryStore.list data kind = .ok []) ∧
    (∀ resources, getEntry kind data = some resources →
      getEntry name resources = none →
      MemoryStore.get data kind name = .error (.notFound kind name)) := by
  constructor
  · intro h
    simp [MemoryStore.get, MemoryStore.list, h]
  · intro resources h1 h2
    simp [MemoryStore.get, h1, h2]

/-- Witness for C9: the kind `DHCPClient` was never written to `st1`, and
`eth1` is missing from the existing kind `NetworkInterface`. -/
theorem unknown_kind_C9_witness :
    (getEntry "DHCPClient" st1 = none ∧
      MemoryStore.get st1 "DHCPClient" "any" = .error (.kindNotFound "DHCPClient") ∧
      MemoryStore.list st1 "DHCPClient" = .ok []) ∧
    MemoryStore.get st1 "NetworkInterface" "eth1" =
      .error (.notFound "NetworkInterface" "eth1") :=
  ⟨⟨by decide, (unknown_kind_C9 st1 "DHCPClient" "any").1 (by decide)⟩,
   (unknown_kind_C9 st1 "NetworkInterface" "eth1").2 [("eth0", ethRes)]
     (by decide) (by decide)⟩

/-- Counterexample to C2 as stated: `ownedB` targets the stored `eth0`
(owned by `A`), differs from it structurally, yet `Update` returns the
ownership-conflict error instead of bumping the generation and emitting
an `Updated` event. -/
theorem effective_update_C2_counterexample :
    ownedB ≠ ownedA ∧
    getEntry "eth0" (bucketOf stOwnedA "NetworkInterface") = some ownedA ∧
    MemoryStore.update stOwnedA ownedB =
      .error (.ownerConflict "NetworkInterface" "eth0" "A") :=
  ⟨by decide, by decide, by decide⟩

/-- C2 as amended: for an existing resource and an incoming record that
carries metadata, passes the own ownership check of the core store
(stored owner empty or equal to the incoming owner), and is not
structurally equal to the stored record, `Update` sets the incoming
generation to the stored generation plus 1, replaces the stored record
with a (deep copy of the) mutated incoming record, emits an `Updated`
event carrying it, and returns success. -/
theorem effective_update_C2 (data : StoreData) (r existing : Resource)
    (m : ResourceMetadata)
    (hm : r.metadata = some m)
    (hstored : getEntry m.name (bucketOf data m.kind) = some existing)
    (hown : storedOwner existing = "" ∨ storedOwner existing = m.owner)
    (hne : existing ≠ r) :
    MemoryStore.update data r =
      .ok (putEntry m.kind
             (putEntry m.name
               { r with metadata := some { m with generation := storedGeneration existing + 1 } }
               (bucketOf data m.kind)) data,
           [⟨.updated,
             { r with metadata := some { m with generation := storedGeneration existing + 1 } }⟩]) := by
  have hcond : ¬(storedOwner existing ≠ "" ∧ storedOwner existing ≠ m.owner) := by
    rcases hown with h | h <;> simp [h]
  simp [MemoryStore.update, hm, hstored, hcond, hne]

/-- Witness for amended C2: the MAC change of `ethRes2` over `st1` stores
the bumped record and emits the matching `Updated` event. -/
theorem effective_update_C2_witness :
    ethRes2.metadata = some ethMeta ∧
    getEntry ethMeta.name (bucketOf st1 ethMeta.kind) = some ethRes ∧
    storedOwner ethRes = "" ∧
    ethRes ≠ ethRes2 ∧
    MemoryStore.update st1 ethRes2 =
      .ok ([("NetworkInterface", [("eth0", ethRes2Bumped)])], [⟨.updated, ethRes2Bumped⟩]) :=
  ⟨rfl, by decide, by decide, by decide,
   effective_update_C2 st1 ethRes2 ethRes ethMeta rfl (by decide) (.inl (by decide))
     (by decide)⟩

/-- Counterexample to C3 as stated: `Create` does not normalise the
generation — creating `gen7Res`, whose caller-chosen generation is 7,
stores and then `Get`s generation 7, not the uniform initial value 0. -/
theorem create_generation_C3_counterexample :
    MemoryStore.create [] gen7Res = .ok (st7, [⟨.created, gen7Res⟩]) ∧
    MemoryStore.get st7 "NetworkInterface" "eth0" = .ok gen7Res ∧
    storedGeneration gen7Res = 7 :=
  ⟨by decide, by decide, by decide⟩

/-- C3 as amended: after a successful `Create(S, r)`, `Get` on the kind
and name of `r` yields a record structurally equal to `r` including its
`generation`: the store keeps whatever generation the caller supplied
(0 exactly when the caller supplies the proto default, as the tests do)
rather than resetting it to a uniform initial value. -/
theorem create_generation_C3 (data : StoreData) (r : Resource) (m : ResourceMetadata)
    (hm : r.metadata = some m)
    (hfresh : getEntry m.name (bucketOf data m.kind) = none) :
    MemoryStore.create data r =
      .ok (putEntry m.kind (putEntry m.name r (bucketOf data m.kind)) data,
           [⟨.created, r⟩]) ∧
    MemoryStore.get (putEntry m.kind (putEntry m.name r (bucketOf data m.kind)) data)
      m.kind m.name = .ok r := by
  constructor
  · simp [MemoryStore.create, hm, hfresh]
  · simp [MemoryStore.get, getEntry_putEntry_self]

/-- Witness for amended C3 at the `eth0` fixture over the empty store. -/
theorem create_generation_C3_witness :
    ethRes.metadata = some ethMeta ∧
    getEntry ethMeta.name (bucketOf [] ethMeta.kind) = none ∧
    (MemoryStore.create [] ethRes =
      .ok (putEntry ethMeta.kind (putEntry ethMeta.name ethRes (bucketOf [] ethMeta.kind)) [],
           [⟨.created, ethRes⟩]) ∧
    MemoryStore.get
      (putEntry ethMeta.kind (putEntry ethMeta.name ethRes (bucketOf [] ethMeta.kind)) [])
      ethMeta.kind ethMeta.name = .ok ethRes) :=
  ⟨rfl, by decide, create_generation_C3 [] ethRes ethMeta rfl (by decide)⟩

/-- Counterexample to C4 as stated: a resource whose `metadata.name` is
empty is accepted by `Create` (and `mismRes`, whose spec tag differs from
its kind, is likewise accepted; see the C10 theorem) instead of failing
with a validation error. -/
theorem validation_C4_counterexample :
    noNameRes.metadata.map ResourceMetadata.name = some "" ∧
    MemoryStore.create [] noNameRes =
      .ok ([("NetworkInterface", [("", noNameRes)])], [⟨.created, noNameRes⟩]) :=
  ⟨by decide, by decide⟩

/-- C4 as amended: `Create` and `Update` fail with the missing-metadata
validation error exactly when `metadata` is absent (the store is then
untouched, the error carrying no new state); empty `name` or `kind` and
a spec-variant tag disagreeing with `metadata.kind` are not validated
and never produce that error. -/
theorem validation_C4 (data : StoreData) (r : Resource) :
    (r.metadata = none →
      MemoryStore.create data r = .error .metadataRequired ∧
      MemoryStore.update data r = .error .metadataRequired) ∧
    (∀ m, r.metadata = some m →
      MemoryStore.create data r ≠ .error .metadataRequired ∧
      MemoryStore.update data r ≠ .error .metadataRequired) := by
  constructor
  · intro h
    simp [MemoryStore.create, MemoryStore.update, h]
  · intro m hm
    constructor
    · simp only [MemoryStore.create, hm]
      cases getEntry m.name (bucketOf data m.kind) <;> simp
    · simp only [MemoryStore.update, hm]
      cases getEntry m.name (bucketOf data m.kind) with
      | none => simp
      | some existing =>
        by_cases h1 : storedOwner existing ≠ "" ∧ storedOwner existing ≠ m.owner
        · simp [h1]
        · by_cases h2 : existing = r
          · subst h2
            simp [h1]
          · simp [h1, h2]

/-- Witness for amended C4: the metadata-free resource is rejected by
both `Create` and `Update`, while the `eth0` fixture never sees the
missing-metadata error. -/
theorem validation_C4_witness :
    (Resource.mk none none).metadata = none ∧
    (MemoryStore.create st1 ⟨none, none⟩ = .error .metadataRequired ∧
     MemoryStore.update st1 ⟨none, none⟩ = .error .metadataRequired) ∧
    ethRes.metadata = some ethMeta ∧
    (MemoryStore.create st1 ethRes ≠ .error .metadataRequired ∧
     MemoryStore.update st1 ethRes ≠ .error .metadataRequired) :=
  ⟨rfl, (validation_C4 st1 ⟨none, none⟩).1 rfl, rfl,
   (validation_C4 st1 ethRes).2 ethMeta rfl⟩

/-- Counterexample to C5 as stated: `eth0` in `st1` exists with an EMPTY
owner, yet the ownership wrapper configured with owner `gen` fails the
update with an `OwnershipError` instead of delegating. -/
theorem ownership_update_C5_counterexample :
    storedOwner ethRes = "" ∧
    MemoryStore.get st1 "NetworkInterface" "eth0" = .ok ethRes ∧
    OwnershipStore.update "gen" st1 ethRes2 =
      .error (.ownershipError "NetworkInterface" "eth0" "" "update") :=
  ⟨by decide, by decide, by decide⟩

/-- C5 as amended: for the ownership wrapper configured with owner `O`,
`Update` on an existing resource fails with
`OwnershipError (kind, name, owner, update)` exactly when the owner of
the existing resource DIFFERS from `O` — an empty existing owner also
fails when `O` is non-empty; only when the existing owner equals `O` is
the incoming owner overwritten with `O` and the update delegated to the
wrapped store. -/
theorem ownership_update_C5 (owner : String) (data : StoreData)
    (r existing : Resource) (m : ResourceMetadata)
    (hm : r.metadata = some m)
    (hget : MemoryStore.get data m.kind m.name = .ok existing) :
    (storedOwner existing ≠ owner →
      OwnershipStore.update owner data r =
        .error (.ownershipError m.kind m.name (storedOwner existing) "update")) ∧
    (storedOwner existing = owner →
      OwnershipStore.update owner data r =
        MemoryStore.update data (setOwner r owner)) := by
  constructor <;> intro h <;> simp [OwnershipStore.update, hm, hget, h]

/-- Witness for amended C5: with configured owner `A` over `stOwnedA`
(whose `eth0` is owned by `A`), the update of `ownedB` is delegated with
the owner overwritten to `A`. -/
theorem ownership_update_C5_witness :
    ownedB.metadata.map ResourceMetadata.kind = some "NetworkInterface" ∧
    MemoryStore.get stOwnedA "NetworkInterface" "eth0" = .ok ownedA ∧
    ((storedOwner ownedA ≠ "A" →
      OwnershipStore.update "A" stOwnedA ownedB =
        .error (.ownershipError "NetworkInterface" "eth0" (storedOwner ownedA) "update")) ∧
    (storedOwner ownedA = "A" →
      OwnershipStore.update "A" stOwnedA ownedB =
        MemoryStore.update stOwnedA (setOwner ownedB "A"))) :=
  ⟨by decide, by decide,
   ownership_update_C5 "A" stOwnedA ownedB ownedA
     { ethMeta with owner := "B" } (by decide) (by decide)⟩

theorem create_stores_owner (data : StoreData) (r : Resource) (m : ResourceMetadata)
    (data' : StoreData) (evs : List Event)
    (hm : r.metadata = some m)
    (h : MemoryStore.create data r = .ok (data', evs)) :
    ownerInStore data' m.kind m.name = some m.owner := by
  simp only [MemoryStore.create, hm] at h
  cases hdup : getEntry m.name (bucketOf data m.kind) with
  | some _ => rw [hdup] at h; exact absurd h (by simp)
  | none =>
    rw [hdup] at h
    have hd : data' = putEntry m.kind (putEntry m.name r (bucketOf data m.kind)) data := by
      cases h; rfl
    subst hd
    simp [ownerInStore, bucketOf, getEntry_putEntry_self, storedOwner, hm]

theorem update_stores_owner (data : StoreData) (r : Resource) (m : ResourceMetadata)
    (data' : StoreData) (evs : List Event)
    (hm : r.metadata = some m)
    (h : MemoryStore.update data r = .ok (data', evs)) :
    ownerInStore data' m.kind m.name = some m.owner := by
  simp only [MemoryStore.update, hm] at h
  split at h
  · exact absurd h (by simp)
  · rename_i existing hex
    split at h
    · exact absurd h (by simp)
    · split at h
      · rename_i h2
        subst h2
        have hd : data' = data := by cases h; rfl
        subst hd
        simp [ownerInStore, hex, storedOwner, hm]
      · rename_i h2
        have hd : data' =
            putEntry m.kind
              (putEntry m.name
                { r with metadata := some { m with generation := storedGeneration existing + 1 } }
                (bucketOf data m.kind)) data := by
          cases h; rfl
        subst hd
        simp [ownerInStore, bucketOf, getEntry_putEntry_self, storedOwner]

/-- C6: for the ownership wrapper configured with owner `O`, `Create`
with an empty incoming owner stamps `O` and delegates; `Create` with a
non-empty different owner fails; and after any successful `Create` or
`Update` through the wrapper the stored owner under the targeted kind
and name equals `O`, whatever owner the caller supplied. -/
theorem ownership_create_C6 (owner : String) (data : StoreData) (r : Resource)
    (m : ResourceMetadata) (hm : r.metadata = some m) :
    (m.owner = "" →
      OwnershipStore.create owner data r = MemoryStore.create data (setOwner r owner)) ∧
    (m.owner ≠ "" → m.owner ≠ owner →
      OwnershipStore.create owner data r = .error (.ownerCreateMismatch m.owner owner)) ∧
    (∀ data' evs, OwnershipStore.create owner data r = .ok (data', evs) →
      ownerInStore data' m.kind m.name = some owner) ∧
    (∀ data' evs, OwnershipStore.update owner data r = .ok (data', evs) →
      ownerInStore data' m.kind m.name = some owner) := by
  have hmeta : (setOwner r owner).metadata = some { m with owner := owner } := by
    simp [setOwner, hm]
  refine ⟨fun h => ?_, fun h1 h2 => ?_, fun data' evs h => ?_, fun data' evs h => ?_⟩
  · simp [OwnershipStore.create, hm, h]
  · simp [OwnershipStore.create, hm, h1, h2]
  · simp only [OwnershipStore.create, hm] at h
    by_cases hc : m.owner ≠ "" ∧ m.owner ≠ owner
    · rw [if_pos hc] at h; exact absurd h (by simp)
    · rw [if_neg hc] at h
      exact create_stores_owner data (setOwner r owner) { m with owner := owner }
        data' evs hmeta h
  · simp only [OwnershipStore.update, hm] at h
    split at h
    · exact absurd h (by simp)
    · split at h
      · exact absurd h (by simp)
      · exact update_stores_owner data (setOwner r owner) { m with owner := owner }
          data' evs hmeta h

/-- Witness for C6: creating `eth0` (empty incoming owner) through the
wrapper configured with `test-owner` delegates with the owner stamped,
and on the successful concrete create the stored owner is `test-owner`. -/
theorem ownership_create_C6_witness :
    ethRes.metadata = some ethMeta ∧
    ((ethMeta.owner = "" →
      OwnershipStore.create "test-owner" [] ethRes =
        MemoryStore.create [] (setOwner ethRes "test-owner")) ∧
    (ethMeta.owner ≠ "" → ethMeta.owner ≠ "test-owner" →
      OwnershipStore.create "test-owner" [] ethRes =
        .error (.ownerCreateMismatch ethMeta.owner "test-owner")) ∧
    (∀ data' evs, OwnershipStore.create "test-owner" [] ethRes = .ok (data', evs) →
      ownerInStore data' ethMeta.kind ethMeta.name = some "test-owner") ∧
    (∀ data' evs, OwnershipStore.update "test-owner" [] ethRes = .ok (data', evs) →
      ownerInStore data' ethMeta.kind ethMeta.name = some "test-owner")) :=
  ⟨rfl, ownership_create_C6 "test-owner" [] ethRes ethMeta rfl⟩

/-- C8: every operation of the type-restriction wrapper whose targeted
kind — `metadata.kind` for `Create` and `Update` — is outside the
allowlist fails with `TypeRestrictedError (kind, action)` carrying the
matching action string, and every operation on an allowed kind returns
exactly what the wrapped store returns. -/
theorem type_restricted_C8 (allowedKinds : List String) (data : StoreData)
    (kind name : String) (r : Resource) (m : ResourceMetadata)
    (hm : r.metadata = some m) :
    (kind ∉ allowedKinds →
      TypeRestrictedStore.get allowedKinds data kind name =
        .error (.typeRestricted kind "get") ∧
      TypeRestrictedStore.list allowedKinds data kind =
        .error (.typeRestricted kind "list") ∧
      TypeRestrictedStore.delete allowedKinds data kind name =
        .error (.typeRestricted kind "delete") ∧
      TypeRestrictedStore.watch allowedKinds data kind =
        .error (.typeRestricted kind "watch")) ∧
    (kind ∈ allowedKinds →
      TypeRestrictedStore.get allowedKinds data kind name = MemoryStore.get data kind name ∧
      TypeRestrictedStore.list allowedKinds data kind = MemoryStore.list data kind ∧
      TypeRestrictedStore.delete allowedKinds data kind name =
        MemoryStore.delete data kind name ∧
      TypeRestrictedStore.watch allowedKinds data kind = MemoryStore.watch data kind) ∧
    (m.kind ∉ allowedKinds →
      TypeRestrictedStore.create allowedKinds data r =
        .error (.typeRestricted m.kind "create") ∧
      TypeRestrictedStore.update allowedKinds data r =
        .error (.typeRestricted m.kind "update")) ∧
    (m.kind ∈ allowedKinds →
      TypeRestrictedStore.create allowedKinds data r = MemoryStore.create data r ∧
      TypeRestrictedStore.update allowedKinds data r = MemoryStore.update data r) := by
  refine ⟨fun h => ?_, fun h => ?_, fun h => ?_, fun h => ?_⟩ <;>
    simp [TypeRestrictedStore.get, TypeRestrictedStore.list, TypeRestrictedStore.delete,
      TypeRestrictedStore.watch, TypeRestrictedStore.create, TypeRestrictedStore.update,
      checkKindAllowed, hm, h]

/-- Witness for C8: the allowlist of the network-interface generator —
`DHCPClient` operations are rejected with the matching action, while the
allowed `NetworkInterface` create of `ethRes` passes through. -/
theorem type_restricted_C8_witness :
    ethRes.metadata = some ethMeta ∧
    (("DHCPClient" ∉ ["NetworkInterface"] →
      TypeRestrictedStore.get ["NetworkInterface"] st1 "DHCPClient" "client1" =
        .error (.typeRestricted "DHCPClient" "get") ∧
      TypeRestrictedStore.list ["NetworkInterface"] st1 "DHCPClient" =
        .error (.typeRestricted "DHCPClient" "list") ∧
      TypeRestrictedStore.delete ["NetworkInterface"] st1 "DHCPClient" "client1" =
        .error (.typeRestricted "DHCPClient" "delete") ∧
      TypeRestrictedStore.watch ["NetworkInterface"] st1 "DHCPClient" =
        .error (.typeRestricted "DHCPClient" "watch")) ∧
    ("DHCPClient" ∈ ["NetworkInterface"] →
      TypeRestrictedStore.get ["NetworkInterface"] st1 "DHCPClient" "client1" =
        MemoryStore.get st1 "DHCPClient" "client1" ∧
      TypeRestrictedStore.list ["NetworkInterface"] st1 "DHCPClient" =
        MemoryStore.list st1 "DHCPClient" ∧
      TypeRestrictedStore.delete ["NetworkInterface"] st1 "DHCPClient" "client1" =
        MemoryStore.delete st1 "DHCPClient" "client1" ∧
      TypeRestrictedStore.watch ["NetworkInterface"] st1 "DHCPClient" =
        MemoryStore.watch st1 "DHCPClient") ∧
    (ethMeta.kind ∉ ["NetworkInterface"] →
      TypeRestrictedStore.create ["NetworkInterface"] st1 ethRes =
        .error (.typeRestricted ethMeta.kind "create") ∧
      TypeRestrictedStore.update ["NetworkInterface"] st1 ethRes =
        .error (.typeRestricted ethMeta.kind "update")) ∧
    (ethMeta.kind ∈ ["NetworkInterface"] →
      TypeRestrictedStore.create ["NetworkInterface"] st1 ethRes =
        MemoryStore.create st1 ethRes ∧
      TypeRestrictedStore.update ["NetworkInterface"] st1 ethRes =
        MemoryStore.update st1 ethRes)) :=
  ⟨rfl,
   type_restricted_C8 ["NetworkInterface"] st1 "DHCPClient" "client1" ethRes ethMeta rfl⟩

/-- C10: a resource whose `metadata.kind` is the kind registered for
`NetworkInterface` but whose spec variant is a `DHCPClient` is accepted
by the core `Create` (which performs no kind/spec-tag validation),
`TypedStore.Get` for `NetworkInterface` then hands it out, and the spec
extraction behind `TypedResource.Spec` takes the failure branch — the
branch where the Go code panics. -/
theorem typed_spec_panic_C10 :
    ∃ r : Resource,
      r.metadata.map ResourceMetadata.kind = some (KindFor .networkInterfaceT) ∧
      MemoryStore.create [] r = .ok (stMism, [⟨.created, r⟩]) ∧
      TypedStore.get .networkInterfaceT stMism "bad0" = .ok ⟨r⟩ ∧
      TypedResource.specOf .networkInterfaceT ⟨r⟩ =
        .error "resource does not contain spec of type NetworkInterface" :=
  ⟨mismRes, by decide, by decide, by decide, by decide⟩

end Microrun
